import Mathlib

/-!
Shallow embedding of the TrendXL 2.0 trend-discovery pipeline
(backend/services/trend_analysis_service.py, content_relevance_service.py,
ensemble_service.py, openai_service.py, cache_service.py and backend/main.py),
with theorems settling the spec claims about deduplication, score bounds,
filter cascades, recency handling, sorting, locking and fallback behaviour.

Numeric conventions: Python ints are modelled as `Nat` (counts) or `Int`
(timestamps); Python floats used for scores and thresholds are modelled as `ℚ`.
Strings that only serve as identifiers are modelled as `String`; strings that
are scanned character by character (captions, hashtags) are `List Char`.
-/

/-- A creation-time value as it flows through the pipeline.
`TikTokPost.create_time` / `TrendVideo.create_time` are ISO strings in the
source; `iso t` stands for a well-formed ISO-8601 string denoting the Unix
timestamp `t`, `bad` for a string `datetime.fromisoformat` rejects, and `ts t`
for a raw integer timestamp (the type `_days_since_creation` is annotated
with). -/
inductive CTime : Type
  | iso (t : Int)
  | bad
  | ts (t : Int)
deriving DecidableEq, Repr

/-- The fields of `TrendVideo` (backend/models.py) that the pipeline's
filtering, scoring and merging logic reads. -/
structure TrendVideo : Type where
  id : String
  caption : List Char
  views : Nat
  likes : Nat
  comments : Nat
  shares : Nat
  create_time : CTime
  hashtag : List Char
deriving DecidableEq, Repr

/-- The fields of `TikTokPost` (backend/models.py) read by the search stage,
the hashtag extractor and their filters. -/
structure TikTokPost : Type where
  id : String
  caption : List Char
  views : Nat
  likes : Nat
  comments : Nat
  shares : Nat
  create_time : CTime
  hashtags : List (List Char)
deriving DecidableEq, Repr

namespace TrendAnalysis

/-- The dedup loop used in `analyze_profile_trends` (both the backup-hashtag
merge, lines 112–118, and each half of the final merge, lines 217–231):
walk the list, keep a trend only when its `id` is not in `seen`, and record
kept ids in `seen`. -/
def dedupById : List TrendVideo → List String → List TrendVideo
  | [], _ => []
  | t :: ts, seen =>
      if t.id ∈ seen then dedupById ts seen
      else t :: dedupById ts (t.id :: seen)

/-- Backup-hashtag merge (trend_analysis_service.py lines 110–120): concatenate
primary and backup results, deduplicate by id, truncate to the target count
(`target_video_count = 10`). -/
def backupMerge (trends backup : List TrendVideo) : List TrendVideo :=
  (dedupById (trends ++ backup) []).take 10

/-- Second loop of the final merge (lines 226–231): append popular trends whose
id is unseen while the combined list stays below 20 entries. A skipped trend
does not update `seen`. -/
def addPopular : List TrendVideo → List TrendVideo → List String → List TrendVideo
  | [], combined, _ => combined
  | t :: ts, combined, seen =>
      if t.id ∉ seen ∧ combined.length < 20 then
        addPopular ts (combined ++ [t]) (t.id :: seen)
      else
        addPopular ts combined seen

/-- Final niche+popular merge (lines 216–231): add the niche trends first
(dedup by id, no cap), then popular trends via `addPopular` (cap 20). -/
def finalMerge (niche popular : List TrendVideo) : List TrendVideo :=
  let nicheUnique := dedupById niche []
  addPopular popular nicheUnique (nicheUnique.map TrendVideo.id)

theorem dedupById_nodup (ts : List TrendVideo) (seen : List String) :
    ((dedupById ts seen).map TrendVideo.id).Nodup ∧
      ∀ x ∈ (dedupById ts seen).map TrendVideo.id, x ∉ seen := by
  induction ts generalizing seen with
  | nil => simp [dedupById]
  | cons t ts ih =>
      by_cases hmem : t.id ∈ seen
      · rw [dedupById, if_pos hmem]
        exact ih seen
      · rw [dedupById, if_neg hmem]
        obtain ⟨hnd, hni⟩ := ih (t.id :: seen)
        refine ⟨?_, ?_⟩
        · rw [List.map_cons, List.nodup_cons]
          refine ⟨fun hcontra => ?_, hnd⟩
          exact hni t.id hcontra (by simp)
        · intro x hx
          rw [List.map_cons, List.mem_cons] at hx
          rcases hx with rfl | hx
          · exact hmem
          · intro hxs
            exact hni x hx (by simp [hxs])

/-- Helper: `addPopular` preserves "combined has nodup ids all recorded in
seen". -/
theorem addPopular_nodup (ps combined : List TrendVideo) (seen : List String)
    (hnd : (combined.map TrendVideo.id).Nodup)
    (hseen : ∀ x ∈ combined.map TrendVideo.id, x ∈ seen) :
    ((addPopular ps combined seen).map TrendVideo.id).Nodup := by
  induction ps generalizing combined seen with
  | nil => simpa [addPopular] using hnd
  | cons p ps ih =>
      by_cases hc : p.id ∉ seen ∧ combined.length < 20
      · simp only [addPopular, if_pos hc]
        refine ih (combined ++ [p]) (p.id :: seen) ?_ ?_
        · simp only [List.map_append, List.map_cons, List.map_nil]
          rw [List.nodup_append]
          refine ⟨hnd, by simp, ?_⟩
          intro x hx
          simp only [List.mem_singleton]
          intro hxp
          subst hxp
          exact hc.1 (hseen _ hx)
        · intro x hx
          simp only [List.map_append, List.map_cons, List.map_nil,
            List.mem_append, List.mem_singleton] at hx
          rcases hx with hx | rfl
          · exact List.mem_cons_of_mem _ (hseen _ hx)
          · simp
      · simp only [addPopular, if_neg hc]
        exact ih combined seen hnd hseen

/-- Helper: every trend kept by `dedupById` comes from the input list. -/
theorem dedupById_subset (ts : List TrendVideo) (seen : List String) :
    ∀ t ∈ dedupById ts seen, t ∈ ts := by
  induction ts generalizing seen with
  | nil => simp [dedupById]
  | cons t ts ih =>
      by_cases hmem : t.id ∈ seen
      · rw [dedupById, if_pos hmem]
        intro x hx
        exact List.mem_cons_of_mem _ (ih seen x hx)
      · rw [dedupById, if_neg hmem]
        intro x hx
        rcases List.mem_cons.mp hx with rfl | hx
        · exact List.mem_cons_self _ _
        · exact List.mem_cons_of_mem _ (ih (t.id :: seen) x hx)

/-- Helper: `dedupById` never lengthens the list. -/
theorem dedupById_length_le (ts : List TrendVideo) (seen : List String) :
    (dedupById ts seen).length ≤ ts.length := by
  induction ts generalizing seen with
  | nil => simp [dedupById]
  | cons t ts ih =>
      by_cases hmem : t.id ∈ seen
      · rw [dedupById, if_pos hmem]
        exact Nat.le_succ_of_le (ih seen)
      · rw [dedupById, if_neg hmem]
        simpa using ih (t.id :: seen)

/-- Helper: `addPopular` appends a selection of the popular list after the
existing combined list. -/
theorem addPopular_append (ps combined : List TrendVideo) (seen : List String) :
    ∃ ext, addPopular ps combined seen = combined ++ ext ∧ ∀ t ∈ ext, t ∈ ps := by
  induction ps generalizing combined seen with
  | nil => exact ⟨[], by simp [addPopular]⟩
  | cons p ps ih =>
      by_cases hc : p.id ∉ seen ∧ combined.length < 20
      · obtain ⟨ext, heq, hmem⟩ := ih (combined ++ [p]) (p.id :: seen)
        refine ⟨p :: ext, ?_, ?_⟩
        · rw [addPopular, if_pos hc, heq, List.append_assoc]
          rfl
        · intro t ht
          rcases List.mem_cons.mp ht with rfl | ht
          · exact List.mem_cons_self _ _
          · exact List.mem_cons_of_mem _ (hmem t ht)
      · obtain ⟨ext, heq, hmem⟩ := ih combined seen
        refine ⟨ext, ?_, fun t ht => List.mem_cons_of_mem _ (hmem t ht)⟩
        rw [addPopular, if_neg hc]
        exact heq

/-- Helper: `addPopular` never grows the combined list past
`max combined.length 20`. -/
theorem addPopular_length_le (ps combined : List TrendVideo) (seen : List String) :
    (addPopular ps combined seen).length ≤ max combined.length 20 := by
  induction ps generalizing combined seen with
  | nil => simp [addPopular]
  | cons p ps ih =>
      by_cases hc : p.id ∉ seen ∧ combined.length < 20
      · rw [addPopular, if_pos hc]
        have h := ih (combined ++ [p]) (p.id :: seen)
        have hlen : (combined ++ [p]).length ≤ 20 := by
          have := hc.2
          simp only [List.length_append, List.length_singleton]
          omega
        calc (addPopular ps (combined ++ [p]) (p.id :: seen)).length
            ≤ max (combined ++ [p]).length 20 := h
          _ = 20 := by omega
          _ ≤ max combined.length 20 := le_max_right _ _
      · rw [addPopular, if_neg hc]
        exact ih combined seen

/-- C1: every `trends[]` list assembled by `analyze_profile_trends` has
pairwise-distinct `TrendCandidate.id`s: both the backup-hashtag merge and the
final niche+popular merge skip any candidate whose id was already added. -/
theorem analyze_profile_trends_dedup
    (trends backup niche popular : List TrendVideo) :
    ((backupMerge trends backup).map TrendVideo.id).Nodup ∧
      ((finalMerge niche popular).map TrendVideo.id).Nodup := by
  constructor
  · have h := (dedupById_nodup (trends ++ backup) []).1
    rw [backupMerge]
    exact h.sublist ((List.take_sublist _ _).map _)
  · have h := (dedupById_nodup niche []).1
    exact addPopular_nodup popular (dedupById niche [])
      ((dedupById niche []).map TrendVideo.id) h (fun x hx => hx)

/-- C10: the final result of `analyze_profile_trends` is at most 20 trends,
of which at most 10 are niche (relevance-ranked) candidates, and every niche
candidate precedes every popular-supplement candidate. -/
theorem analyze_profile_trends_result_shape
    (relevanceSorted popular : List TrendVideo) :
    (finalMerge (relevanceSorted.take 10) popular).length ≤ 20 ∧
      ∃ ns ps, finalMerge (relevanceSorted.take 10) popular = ns ++ ps ∧
        ns.length ≤ 10 ∧ (∀ t ∈ ns, t ∈ relevanceSorted.take 10) ∧
        ∀ t ∈ ps, t ∈ popular := by
  set niche := relevanceSorted.take 10 with hn
  have hlen : (dedupById niche []).length ≤ 10 := by
    calc (dedupById niche []).length ≤ niche.length := dedupById_length_le _ _
      _ ≤ 10 := by simp [hn]
  constructor
  · have h := addPopular_length_le popular (dedupById niche [])
      ((dedupById niche []).map TrendVideo.id)
    rw [finalMerge]
    omega
  · obtain ⟨ext, heq, hmem⟩ := addPopular_append popular (dedupById niche [])
      ((dedupById niche []).map TrendVideo.id)
    exact ⟨dedupById niche [], ext, heq, hlen, dedupById_subset _ _, hmem⟩

/-- Engagement rate as computed throughout the pipeline:
`(likes + comments + shares) / max(views, 1)`. -/
def engagement_rate (t : TrendVideo) : ℚ :=
  ((t.likes : ℚ) + t.comments + t.shares) / ((max t.views 1 : Nat) : ℚ)

/-- Composite ranking score from the sort key in `analyze_profile_trends`
(lines 170–181): `views*0.3 + likes*8 + comments*15 + shares*20 +
engagement_rate*50000`. -/
def compositeScore (t : TrendVideo) : ℚ :=
  (t.views : ℚ) * (3 / 10) + (t.likes : ℚ) * 8 + (t.comments : ℚ) * 15 +
    (t.shares : ℚ) * 20 + engagement_rate t * 50000

/-- The comparison `sorted(..., reverse=True)` effectively uses: `a` may come
before `b` iff `b`'s key does not exceed `a`'s. -/
def scoreLE (a b : TrendVideo) : Bool :=
  decide (compositeScore b ≤ compositeScore a)

/-- `sorted(quality_trends, key=..., reverse=True)[:30]`: Python's stable
descending sort followed by truncation to 30, modelled by `List.mergeSort`
(also a stable sort) and `take`. -/
def engagementSort (ts : List TrendVideo) : List TrendVideo :=
  (ts.mergeSort scoreLE).take 30

theorem scoreLE_trans (a b c : TrendVideo) :
    scoreLE a b = true → scoreLE b c = true → scoreLE a c = true := by
  simp only [scoreLE, decide_eq_true_eq]
  exact fun h1 h2 => le_trans h2 h1

theorem scoreLE_total (a b : TrendVideo) : (scoreLE a b || scoreLE b a) = true := by
  simp only [scoreLE, Bool.or_eq_true, decide_eq_true_eq]
  exact le_total _ _

/-- C5: after the quality filter, candidates are sorted by the composite score
in non-increasing order (also after truncation to 30), the sorted list is a
permutation of its input, and candidates with equal scores keep their prior
relative order (stability). -/
theorem engagementSort_sorted_stable (ts : List TrendVideo) :
    (engagementSort ts).Pairwise
      (fun a b => compositeScore b ≤ compositeScore a) ∧
      (ts.mergeSort scoreLE).Perm ts ∧
      ∀ a b : TrendVideo, compositeScore a = compositeScore b →
        [a, b].Sublist ts → [a, b].Sublist (ts.mergeSort scoreLE) := by
  refine ⟨?_, List.mergeSort_perm ts scoreLE, ?_⟩
  · have hs := List.sorted_mergeSort scoreLE_trans scoreLE_total ts
    have hp : (ts.mergeSort scoreLE).Pairwise
        (fun a b => compositeScore b ≤ compositeScore a) := by
      refine hs.imp ?_
      intro a b h
      simpa [scoreLE] using h
    exact hp.sublist (List.take_sublist _ _)
  · intro a b heq hsub
    refine List.pair_sublist_mergeSort scoreLE_trans scoreLE_total ?_ hsub
    simp [scoreLE, heq]

/-- Witness for C5 at a concrete input: two distinct candidates with equal
composite scores stay in their original order in the sorted output. -/
theorem engagementSort_sorted_stable_witness :
    [⟨"a", [], 5, 1, 0, 0, .iso 0, []⟩, ⟨"b", [], 5, 1, 0, 0, .iso 0, []⟩].Sublist
      (([⟨"z", [], 100, 0, 0, 0, .iso 0, []⟩,
         ⟨"a", [], 5, 1, 0, 0, .iso 0, []⟩,
         ⟨"b", [], 5, 1, 0, 0, .iso 0, []⟩] : List TrendVideo).mergeSort scoreLE) := by
  refine (engagementSort_sorted_stable _).2.2 _ _ rfl ?_
  exact List.Sublist.cons _ (List.Sublist.refl _)

/-- `_days_since_creation` (trend_analysis_service.py lines 475–484):
`int((now - create_time) / 86400)` when the subtraction succeeds, i.e. when
`create_time` is a number; any exception — in particular the `TypeError`
raised when `create_time` is a string, which `TrendVideo.create_time` always
is — is caught and yields `1` ("assume recent content"). -/
def days_since_creation : CTime → Int → Int
  | .ts t, now => (now - t) / 86400
  | .iso _, _ => 1
  | .bad, _ => 1

/-- `_parse_timestamp` (ensemble_service.py lines 1182–1215): a missing or
zero raw timestamp, and any conversion failure, is replaced by the current
time; the function always returns a valid ISO string. -/
def parse_timestamp (raw : Option Int) (now : Int) : CTime :=
  match raw with
  | none => .iso now
  | some t => if t = 0 then .iso now else .iso t

/-- The ISO recency filter used in `_search_trending_videos_optimized`
(lines 389–405) and `search_hashtag_posts`: keep a post iff
`datetime.fromisoformat(create_time)` succeeds (constructor `iso`) and the
parsed date is within `days` days of `now`; `ValueError`/`AttributeError`
drop the post. -/
def dateFilter (now days : Int) (posts : List TikTokPost) : List TikTokPost :=
  posts.filter fun p =>
    match p.create_time with
    | .iso t => decide (now - days * 86400 ≤ t)
    | _ => false

/-- Strict quality filter over the merged candidate set
(trend_analysis_service.py lines 139–157): engagement rate ≥ 0.02,
views ≥ 10000, likes ≥ 200, and the `_days_since_creation` age at most 14. -/
def strictQualityFilter (now : Int) (trends : List TrendVideo) : List TrendVideo :=
  trends.filter fun t =>
    decide ((2 : ℚ) / 100 ≤ engagement_rate t) &&
    decide (10000 ≤ t.views) && decide (200 ≤ t.likes) &&
    decide (days_since_creation t.create_time now ≤ 14)

/-- Relaxed tier (lines 162–167): `views > 5000 and likes > 50`, capped
at 30. -/
def relaxedQualityFilter (trends : List TrendVideo) : List TrendVideo :=
  (trends.filter fun t => decide (5000 < t.views) && decide (50 < t.likes)).take 30

/-- The merged-set quality cascade of `analyze_profile_trends`: the relaxed
tier is attempted only when the strict tier has zero survivors. There is no
further tier. -/
def qualityCascade (now : Int) (trends : List TrendVideo) : List TrendVideo :=
  let q := strictQualityFilter now trends
  if q.isEmpty then relaxedQualityFilter trends else q

/-- First selection tier of `search_hashtag_posts` (ensemble_service.py
line 313): posts with more than 10 views. -/
def searchTier1 (posts : List TikTokPost) : List TikTokPost :=
  posts.filter fun p => decide (10 < p.views)

/-- Second tier (lines 316–319): if no post passed tier 1 and posts exist,
fall back to `views > 0`. -/
def searchTier2 (posts : List TikTokPost) : List TikTokPost :=
  if (searchTier1 posts).isEmpty ∧ ¬ posts.isEmpty then
    posts.filter fun p => decide (0 < p.views)
  else searchTier1 posts

/-- Third tier (lines 322–325): if still empty, take all available posts. -/
def searchTier3 (posts : List TikTokPost) : List TikTokPost :=
  if (searchTier2 posts).isEmpty then posts else searchTier2 posts

/-- Per-hashtag selection cascade of `search_hashtag_posts` (lines 311–327):
the tiered selection truncated to `count`
(`quality_posts[:count] if quality_posts else posts[:count]`). -/
def searchQualityCascade (count : Nat) (posts : List TikTokPost) : List TikTokPost :=
  if (searchTier3 posts).isEmpty then posts.take count
  else (searchTier3 posts).take count

/-- Helper: the third search tier is non-empty whenever posts exist. -/
theorem searchTier3_ne_nil (posts : List TikTokPost) (hp : posts ≠ []) :
    searchTier3 posts ≠ [] := by
  unfold searchTier3
  split_ifs with h
  · exact hp
  · intro hc
    exact h (by simp [hc])

/-- C3 counterexample: a non-empty merged candidate set on which the
merged-set quality cascade returns the empty list — a single candidate with
100 views and 10 likes fails both the strict and the relaxed tier, and no
further tier exists in `analyze_profile_trends`. -/
theorem qualityCascade_empty_on_nonempty_input :
    qualityCascade 1700000000
        [⟨"low", [], 100, 10, 0, 0, .iso 1699999000, []⟩] = [] ∧
      ([⟨"low", [], 100, 10, 0, 0, .iso 1699999000, []⟩] : List TrendVideo) ≠ [] := by
  constructor
  · simp only [qualityCascade, strictQualityFilter, relaxedQualityFilter,
      List.filter, days_since_creation]
    norm_num [engagement_rate]
  · simp

/-- C3 amended: the merged-set cascade has exactly two tiers — relaxed is
attempted only when strict has zero survivors, and nothing catches a
zero-survivor relaxed tier — while the minimal `views > 0` tier and the
use-all-posts last resort live in the per-hashtag cascade of
`search_hashtag_posts`, which does yield a non-empty selection whenever its
input posts are non-empty and the requested count is positive. -/
theorem qualityCascade_amended (now : Int) (ts : List TrendVideo)
    (posts : List TikTokPost) (count : Nat)
    (hp : posts ≠ []) (hc : 0 < count) :
    (strictQualityFilter now ts ≠ [] →
        qualityCascade now ts = strictQualityFilter now ts) ∧
      (strictQualityFilter now ts = [] →
        qualityCascade now ts = relaxedQualityFilter ts) ∧
      searchQualityCascade count posts ≠ [] := by
  refine ⟨?_, ?_, ?_⟩
  · intro h
    simp [qualityCascade, List.isEmpty_iff, h]
  · intro h
    simp [qualityCascade, List.isEmpty_iff, h]
  · have h3 := searchTier3_ne_nil posts hp
    unfold searchQualityCascade
    split_ifs with h
    · exact absurd (List.isEmpty_iff.mp h) h3
    · intro hcontra
      rcases List.take_eq_nil_iff.mp hcontra with h' | h'
      · omega
      · exact h3 h'

/-- Witness for the amended C3 theorem at a concrete input. -/
theorem qualityCascade_amended_witness :
    searchQualityCascade 5 [⟨"p", [], 0, 0, 0, 0, .iso 0, []⟩] ≠ [] :=
  (qualityCascade_amended 0 [] [⟨"p", [], 0, 0, 0, 0, .iso 0, []⟩] 5
    (by simp) (by omega)).2.2

/-- C4 counterexample: candidates with an unparsable or missing
`create_time` do pass the age-window checks. A `TrendVideo` whose
`create_time` string is unparsable survives the strict quality filter
(its `_days_since_creation` defaults to 1 day), and a vendor post whose raw
timestamp is missing is assigned the current time by `_parse_timestamp` and
then passes the 30-day recency filter. -/
theorem unparsable_create_time_passes_checks :
    strictQualityFilter 1700000000
        [⟨"bad", [], 20000, 300, 100, 50, .bad, []⟩] =
      [⟨"bad", [], 20000, 300, 100, 50, .bad, []⟩] ∧
      parse_timestamp none 1700000000 = CTime.iso 1700000000 ∧
      dateFilter 1700000000 30
          [⟨"m", [], 5, 0, 0, 0, parse_timestamp none 1700000000, []⟩] =
        [⟨"m", [], 5, 0, 0, 0, parse_timestamp none 1700000000, []⟩] := by
  refine ⟨?_, rfl, ?_⟩
  · simp only [strictQualityFilter, List.filter, days_since_creation]
    norm_num [engagement_rate]
  · simp only [dateFilter, parse_timestamp, List.filter]
    norm_num

/-- C4 amended: the search-stage recency filter keeps only posts whose
`create_time` is a parseable ISO string within the window — so a post whose
string cannot be parsed is dropped there, never defaulted to fresh — but
`_parse_timestamp` substitutes the current time for a missing raw timestamp,
and the quality-filter stage's `_days_since_creation` defaults any
`create_time` it cannot subtract from the clock (every string value,
parseable or not) to an age of 1 day, which passes the 14-day check. -/
theorem dateFilter_amended (now days : Int) (posts : List TikTokPost)
    (p : TikTokPost) (hp : p ∈ dateFilter now days posts) :
    (∃ t, p.create_time = CTime.iso t ∧ now - days * 86400 ≤ t) ∧
      days_since_creation CTime.bad now = 1 ∧
      parse_timestamp none now = CTime.iso now := by
  refine ⟨?_, rfl, rfl⟩
  rw [dateFilter, List.mem_filter] at hp
  obtain ⟨-, hcond⟩ := hp
  cases hct : p.create_time with
  | iso t =>
      refine ⟨t, rfl, ?_⟩
      rw [hct] at hcond
      simpa using hcond
  | bad => rw [hct] at hcond; simp at hcond
  | ts t => rw [hct] at hcond; simp at hcond

/-- Witness for the amended C4 theorem at a concrete input. -/
theorem dateFilter_amended_witness :
    (∃ t, (⟨"ok", [], 1, 0, 0, 0, .iso 1700000000, []⟩ : TikTokPost).create_time =
        CTime.iso t ∧ 1700000000 - 30 * 86400 ≤ t) ∧
      days_since_creation CTime.bad 1700000000 = 1 ∧
      parse_timestamp none 1700000000 = CTime.iso 1700000000 := by
  refine dateFilter_amended 1700000000 30
    [⟨"ok", [], 1, 0, 0, 0, .iso 1700000000, []⟩] _ ?_
  simp [dateFilter, List.filter]

/-- `f"{trend.caption} #{trend.hashtag}".lower()`
(content_relevance_service.py line 491). -/
def textContent (t : TrendVideo) : List Char :=
  (t.caption ++ (' ' :: '#' :: t.hashtag)).map Char.toLower

/-- `_calculate_content_age` (content_relevance_service.py lines 579–588):
like `_days_since_creation` but clamped non-negative; string inputs raise
`TypeError` and default to 1. -/
def calculate_content_age : CTime → Int → Int
  | .ts t, now => max 0 ((now - t) / 86400)
  | .iso _, _ => 1
  | .bad, _ => 1

/-- Count of lowercased niche-category words of length > 2 occurring as
substrings of the text (lines 494–496). -/
def countNicheMatches (nicheWords : List (List Char)) (text : List Char) : Nat :=
  nicheWords.countP fun w => decide (2 < w.length) && decide (w.map Char.toLower <:+: text)

/-- Count of the first 8 key topics of length > 2 occurring lowercased as
substrings of the text (lines 504–507). -/
def countTopicMatches (topics : List (List Char)) (text : List Char) : Nat :=
  (topics.take 8).countP fun w => decide (2 < w.length) && decide (w.map Char.toLower <:+: text)

/-- Niche-match partial score (lines 497–499): `min(0.4, matches * 0.2)` when
any match, else 0. -/
def nicheScore (n : Nat) : ℚ :=
  if 0 < n then min (4 / 10) ((n : ℚ) * (2 / 10)) else 0

/-- Topic-match partial score (lines 509–512): `min(0.3, matches * 0.1)` when
any match, else 0. -/
def topicScore (n : Nat) : ℚ :=
  if 0 < n then min (3 / 10) ((n : ℚ) * (1 / 10)) else 0

/-- Engagement-tier partial score (lines 516–534). -/
def engagementScore (er : ℚ) : ℚ :=
  if 8 / 100 ≤ er then 15 / 100
  else if 5 / 100 ≤ er then 12 / 100
  else if 3 / 100 ≤ er then 8 / 100
  else if 2 / 100 ≤ er then 5 / 100
  else 0

/-- Freshness-tier partial score (lines 536–546). -/
def freshnessScore (age : Int) : ℚ :=
  if age ≤ 3 then 1 / 10
  else if age ≤ 7 then 7 / 100
  else if age ≤ 14 then 4 / 100
  else 0

/-- Viral-potential partial score (lines 548–557). -/
def viralScore (views : Nat) : ℚ :=
  if 2000000 < views then 5 / 100
  else if 1000000 < views then 4 / 100
  else if 500000 < views then 2 / 100
  else 0

/-- `_analyze_text_relevance` (content_relevance_service.py lines 480–577):
the additive weighted heuristic, clamped by `min(1.0, ·)`, then a quality
bonus of 0.05 (clamped again) for high-performing content. Niche words and
key topics are passed pre-split, as the code derives them from
`user_niche_category.lower().split()` and `user_key_topics`. -/
def analyze_text_relevance (t : TrendVideo) (nicheWords topics : List (List Char))
    (now : Int) : ℚ :=
  let text := textContent t
  let base := min 1
    (nicheScore (countNicheMatches nicheWords text) +
      topicScore (countTopicMatches topics text) +
      engagementScore (engagement_rate t) +
      freshnessScore (calculate_content_age t.create_time now) +
      viralScore t.views)
  if 50000 < t.likes ∧ 4 / 100 < engagement_rate t then min 1 (base + 5 / 100)
  else base

/-- Score extraction of `_parse_vision_response` (lines 445–453): a parsed
`Relevance Score:` value is clamped to `[0,1]`; a failed `float()` parse (or
a missing line) leaves the default 0.5. -/
def parse_vision_score (raw : Option ℚ) : ℚ :=
  match raw with
  | some x => max 0 (min 1 x)
  | none => 1 / 2

/-- How a candidate obtains its relevance score in
`analyze_trends_relevance` / `_analyze_single_trend_relevance`. -/
inductive VisionOutcome : Type
  | vision (raw : Option ℚ)
  | visionUnavailable
  | textFailed
  | notAnalyzed

/-- The relevance score assigned to one candidate by the RelevanceScorer
stage: the parsed-and-clamped vision score; the text heuristic when the
thumbnail is missing, its download fails, the collaborator fails or its
response cannot be parsed; 0.3 when the text heuristic itself raises
(line 577) or the candidate is beyond `max_images` (line 107). -/
def relevance_stage_score (o : VisionOutcome) (t : TrendVideo)
    (nicheWords topics : List (List Char)) (now : Int) : ℚ :=
  match o with
  | .vision raw => parse_vision_score raw
  | .visionUnavailable => analyze_text_relevance t nicheWords topics now
  | .textFailed => 3 / 10
  | .notAnalyzed => 3 / 10

theorem nicheScore_nonneg (n : Nat) : 0 ≤ nicheScore n := by
  unfold nicheScore
  split_ifs
  · exact le_min (by norm_num) (by positivity)
  · exact le_refl 0

theorem topicScore_nonneg (n : Nat) : 0 ≤ topicScore n := by
  unfold topicScore
  split_ifs
  · exact le_min (by norm_num) (by positivity)
  · exact le_refl 0

theorem engagementScore_nonneg (er : ℚ) : 0 ≤ engagementScore er := by
  unfold engagementScore
  split_ifs <;> norm_num

theorem freshnessScore_nonneg (age : Int) : 0 ≤ freshnessScore age := by
  unfold freshnessScore
  split_ifs <;> norm_num

theorem viralScore_nonneg (views : Nat) : 0 ≤ viralScore views := by
  unfold viralScore
  split_ifs <;> norm_num

theorem analyze_text_relevance_bounds (t : TrendVideo)
    (nicheWords topics : List (List Char)) (now : Int) :
    0 ≤ analyze_text_relevance t nicheWords topics now ∧
      analyze_text_relevance t nicheWords topics now ≤ 1 := by
  unfold analyze_text_relevance
  have hsum : (0 : ℚ) ≤
      nicheScore (countNicheMatches nicheWords (textContent t)) +
        topicScore (countTopicMatches topics (textContent t)) +
        engagementScore (engagement_rate t) +
        freshnessScore (calculate_content_age t.create_time now) +
        viralScore t.views := by
    have h1 := nicheScore_nonneg (countNicheMatches nicheWords (textContent t))
    have h2 := topicScore_nonneg (countTopicMatches topics (textContent t))
    have h3 := engagementScore_nonneg (engagement_rate t)
    have h4 := freshnessScore_nonneg (calculate_content_age t.create_time now)
    have h5 := viralScore_nonneg t.views
    linarith
  have hbase0 : (0 : ℚ) ≤ min 1
      (nicheScore (countNicheMatches nicheWords (textContent t)) +
        topicScore (countTopicMatches topics (textContent t)) +
        engagementScore (engagement_rate t) +
        freshnessScore (calculate_content_age t.create_time now) +
        viralScore t.views) := le_min (by norm_num) hsum
  constructor
  · split_ifs
    · exact le_min (by norm_num) (by linarith)
    · exact hbase0
  · split_ifs
    · exact min_le_left _ _
    · exact min_le_left _ _

/-- C2: every candidate's relevance score after the RelevanceScorer stage is
in `[0,1]`: the vision parser clamps, the text heuristic adds non-negative
partial scores and clamps the sum and the quality bonus, and every fallback
path assigns a constant in `[0,1]`. -/
theorem relevance_stage_score_bounds (o : VisionOutcome) (t : TrendVideo)
    (nicheWords topics : List (List Char)) (now : Int) :
    0 ≤ relevance_stage_score o t nicheWords topics now ∧
      relevance_stage_score o t nicheWords topics now ≤ 1 := by
  cases o with
  | vision raw =>
      cases raw with
      | some x =>
          refine ⟨le_max_left _ _, ?_⟩
          simp only [relevance_stage_score, parse_vision_score]
          exact max_le (by norm_num) (min_le_left _ _)
      | none =>
          simp only [relevance_stage_score, parse_vision_score]
          norm_num
  | visionUnavailable => exact analyze_text_relevance_bounds t nicheWords topics now
  | textFailed =>
      simp only [relevance_stage_score]
      norm_num
  | notAnalyzed =>
      simp only [relevance_stage_score]
      norm_num

/-- Outcome of the `analyze_trends` endpoint once it reaches the
lock-protected section of main.py. -/
inductive AnalyzeOutcome (α : Type) : Type
  | cached (r : α)
  | busy
  | ran (r : α)
deriving DecidableEq

/-- The lock-guarded section of `analyze_trends` (main.py lines 387–421):
if `acquire_lock` succeeds the pipeline runs (with a guaranteed `finally`
release); otherwise the handler sleeps a fixed 2 seconds, re-reads the
analysis cache, returns a cached result when one appeared and raises
HTTP 409 ("Analysis already in progress … try again") when not. -/
def lockGuardedAnalyze {α : Type} (lockAcquired : Bool)
    (cacheAfterWait : Option α) (pipelineResult : α) : AnalyzeOutcome α :=
  if lockAcquired then .ran pipelineResult
  else
    match cacheAfterWait with
    | some r => .cached r
    | none => .busy

/-- C6: a caller that fails to acquire the per-(user, profile) lock never runs
the pipeline: after the fixed wait it returns the lock holder's cached result
when present, and otherwise surfaces the busy/retry-later signal. -/
theorem lock_not_acquired_no_pipeline {α : Type} (cacheAfterWait : Option α)
    (pipelineResult : α) :
    (∀ r', lockGuardedAnalyze false cacheAfterWait pipelineResult ≠
        AnalyzeOutcome.ran r') ∧
      (∀ r, cacheAfterWait = some r →
        lockGuardedAnalyze false cacheAfterWait pipelineResult =
          AnalyzeOutcome.cached r) ∧
      (cacheAfterWait = none →
        lockGuardedAnalyze false cacheAfterWait pipelineResult =
          AnalyzeOutcome.busy) := by
  refine ⟨?_, ?_, ?_⟩
  · intro r'
    cases cacheAfterWait <;> simp [lockGuardedAnalyze]
  · rintro r rfl
    simp [lockGuardedAnalyze]
  · rintro rfl
    simp [lockGuardedAnalyze]

/-- Witness for C6 at a concrete input: with the lock held elsewhere and a
cached result appearing after the wait, the handler returns that result. -/
theorem lock_not_acquired_no_pipeline_witness :
    lockGuardedAnalyze false (some 7) 99 = AnalyzeOutcome.cached 7 :=
  (lock_not_acquired_no_pipeline (some 7) 99).2.1 7 rfl

namespace CacheService

/-- `CacheService.get` (cache_service.py lines 49–76), with the backend read
(`redis_client.get`) and the JSON decode (`json.loads`) as explicit
computations that may fail. A disabled backend returns `None`; the `try`
block catches every exception (backend or decode) and returns `None`; an
absent or falsy (empty) payload returns `None`. -/
def get {α : Type} (enabled : Bool) (backendRead : Except Unit (Option String))
    (decode : String → Except Unit α) : Except Unit (Option α) :=
  if ¬ enabled then .ok none
  else
    match backendRead with
    | .error _ => .ok none
    | .ok none => .ok none
    | .ok (some s) =>
        if s = "" then .ok none
        else
          match decode s with
          | .error _ => .ok none
          | .ok v => .ok (some v)

/-- C7: a cache read never raises: it always returns a value, and both a
disabled backend and any backend error yield `None` (a miss), so the pipeline
proceeds as if the cache were empty. -/
theorem get_never_raises {α : Type} (enabled : Bool)
    (backendRead : Except Unit (Option String)) (decode : String → Except Unit α) :
    (∃ v, get enabled backendRead decode = .ok v) ∧
      (enabled = false → get enabled backendRead decode = .ok none) ∧
      ∀ e, backendRead = .error e → get enabled backendRead decode = .ok none := by
  refine ⟨?_, ?_, ?_⟩
  · cases henb : enabled
    · exact ⟨none, by simp [get, henb]⟩
    · rcases backendRead with e | ov
      · exact ⟨none, by simp [get, henb]⟩
      · rcases ov with _ | s
        · exact ⟨none, by simp [get, henb]⟩
        · by_cases hs : s = ""
          · exact ⟨none, by simp [get, henb, hs]⟩
          · rcases hd : decode s with e | v
            · exact ⟨none, by simp [get, henb, hs, hd]⟩
            · exact ⟨some v, by simp [get, henb, hs, hd]⟩
  · rintro rfl
    simp [get]
  · rintro e rfl
    unfold get
    split_ifs <;> rfl

/-- Witness for C7 at a concrete input: a backend error surfaces as a miss. -/
theorem get_never_raises_witness :
    get true (.error ()) (fun s => (.ok s.length : Except Unit Nat)) = .ok none :=
  (get_never_raises true (.error ()) (fun s => (.ok s.length : Except Unit Nat))).2.2
    () rfl

end CacheService

/-- Python's `str.strip()`: drop leading and trailing whitespace. -/
def trimChars (l : List Char) : List Char :=
  ((l.dropWhile Char.isWhitespace).reverse.dropWhile Char.isWhitespace).reverse

/-- `tag.replace('#', '').lower().strip()` — the cleaning applied both in
`_call_gpt_analysis` (openai_service.py line 164) and in
`_generate_fallback_hashtags` (line 213). -/
def clean_tag (tag : List Char) : List Char :=
  trimChars ((tag.filter fun c => c ≠ '#').map Char.toLower)

/-- Hashtag cleaning of `_call_gpt_analysis` (lines 160–166): clean the first
5 raw tags and keep the non-empty results. No deduplication is performed. -/
def clean_gpt_hashtags (raw : List (List Char)) : List (List Char) :=
  (raw.take 5).filterMap fun tag =>
    if clean_tag tag = [] then none else some (clean_tag tag)

/-- `p.views + p.likes * 10` — the popularity key used to pick the top posts
in `analyze_posts_for_hashtags` (lines 51–55). -/
def popularityKey (p : TikTokPost) : Nat :=
  p.views + p.likes * 10

def popLE (a b : TikTokPost) : Bool :=
  decide (popularityKey b ≤ popularityKey a)

/-- `sorted(posts, key=lambda p: p.views + p.likes * 10, reverse=True)[:5]`. -/
def top_posts (posts : List TikTokPost) : List TikTokPost :=
  (posts.mergeSort popLE).take 5

/-- First-occurrence key order of the Python dict built in
`_generate_fallback_hashtags`. -/
def dedupKeys : List (List Char) → List (List Char) → List (List Char)
  | [], _ => []
  | x :: xs, seen =>
      if x ∈ seen then dedupKeys xs seen else x :: dedupKeys xs (x :: seen)

/-- The generic creator-category defaults of `_generate_fallback_hashtags`
(lines 228–229). -/
def niche_defaults : List (List Char) :=
  ["contentcreator".toList, "creative".toList, "creator".toList,
    "content".toList, "original".toList]

/-- Lines 240–245: fill with unseen defaults while fewer than 3 extracted
hashtags, stopping at 5. -/
def addDefaults : List (List Char) → List (List Char) → List (List Char)
  | [], acc => acc
  | d :: ds, acc =>
      if 5 ≤ acc.length then acc
      else if d ∈ acc then addDefaults ds acc
      else addDefaults ds (acc ++ [d])

/-- Lines 248–250: `while len(final) < 5: final.append(defaults[len(final) % 5])`,
modelled with fuel 5 (the loop body runs at most 5 times since the list never
shrinks). -/
def padWithDefaults : Nat → List (List Char) → List (List Char)
  | 0, l => l
  | n + 1, l =>
      if l.length < 5 then
        padWithDefaults n (l ++ [niche_defaults.getD (l.length % 5) []])
      else l

/-- `_generate_fallback_hashtags` (openai_service.py lines 196–255): count the
frequency of cleaned hashtags across all posts, sort keys by frequency
(stable descending), keep up to 4 of reasonable length, pad with generic
defaults when fewer than 3, then pad cyclically to exactly 5. -/
def generate_fallback_hashtags (posts : List TikTokPost) : List (List Char) :=
  let cleaned := ((posts.flatMap TikTokPost.hashtags).map clean_tag).filter
    fun t => t ≠ []
  let sortedKeys := (dedupKeys cleaned []).mergeSort
    fun a b => decide (cleaned.count b ≤ cleaned.count a)
  let fallback := sortedKeys.take 5
  let final1 := (fallback.take 4).filter
    fun t => decide (3 ≤ t.length) && decide (t.length ≤ 20)
  let final2 := if final1.length < 3 then addDefaults niche_defaults final1
    else final1
  (padWithDefaults 5 final2).take 5

/-- The `analysis_summary` of the fallback response
(openai_service.py line 78), which flags that the fallback was used. -/
def fallback_analysis_summary : String :=
  "AI analysis failed, used fallback hashtag extraction based on post content frequency"

/-- `GPTAnalysisResponse` (backend/models.py). -/
structure GPTAnalysisResponse : Type where
  top_hashtags : List (List Char)
  analysis_summary : String
deriving DecidableEq

/-- `analyze_posts_for_hashtags` (openai_service.py lines 26–81), with the
retried GPT call as an explicit computation: empty input raises; a successful
call returns its (already cleaned) response; any failure is caught and the
frequency-derived fallback is returned with the flagging summary. -/
def analyze_posts_for_hashtags (posts : List TikTokPost)
    (gpt : Except Unit GPTAnalysisResponse) : Except Unit GPTAnalysisResponse :=
  if posts.isEmpty then .error ()
  else
    match gpt with
    | .ok r => .ok r
    | .error _ => .ok ⟨generate_fallback_hashtags posts, fallback_analysis_summary⟩

/-- The niche fields of `TikTokProfile` (backend/models.py). -/
structure TikTokProfile : Type where
  username : String
  bio : String
  follower_count : Nat
  video_count : Nat
  niche_category : String
  niche_description : String
  key_topics : List String
  target_audience : String
  content_style : String
deriving DecidableEq

/-- The niche-classifier response (perplexity_service). -/
structure NicheAnalysis : Type where
  niche_category : String
  niche_description : String
  key_topics : List String
  target_audience : String
  content_style : String
deriving DecidableEq

/-- `_enhance_profile_with_niche` (trend_analysis_service.py lines 292–339):
copy the classifier's fields into the profile; on any failure assign the
fixed fallback niche fields. Never raises. -/
def enhance_profile_with_niche (profile : TikTokProfile)
    (niche : Except Unit NicheAnalysis) : TikTokProfile :=
  match niche with
  | .ok n =>
      { profile with
        niche_category := n.niche_category
        niche_description := n.niche_description
        key_topics := n.key_topics
        target_audience := n.target_audience
        content_style := n.content_style }
  | .error _ =>
      { profile with
        niche_category := "General Content Creator"
        niche_description := "Content creator with diverse topics and engaging content"
        key_topics := ["entertainment", "lifestyle", "social media"]
        target_audience := "General TikTok audience"
        content_style := "Mixed content style" }

/-- Helper: `Char.ofNat` on the ASCII lowercase range keeps its code point. -/
theorem charOfNat_toNat (n : Nat) (h1 : 97 ≤ n) (h2 : n ≤ 122) :
    (Char.ofNat n).toNat = n := by
  have hv : n.isValidChar := by left; omega
  unfold Char.ofNat
  rw [dif_pos hv]
  unfold Char.ofNatAux
  simp only [Char.toNat]
  show (UInt32.ofNat' n _).toNat = n
  simp [UInt32.ofNat', UInt32.toNat]

/-- Helper: lowering a character other than `'#'` never yields `'#'`. -/
theorem toLower_eq_hash (c : Char) (h : Char.toLower c = '#') : c = '#' := by
  unfold Char.toLower at h
  simp only [] at h
  by_cases hc : c.toNat ≥ 65 ∧ c.toNat ≤ 90
  · rw [if_pos hc] at h
    exfalso
    have h35 : (Char.ofNat (c.toNat + 32)).toNat = '#'.toNat := by rw [h]
    rw [charOfNat_toNat (c.toNat + 32) (by omega) (by omega)] at h35
    have : '#'.toNat = 35 := by decide
    omega
  · rwa [if_neg hc] at h

/-- Helper: a lowered character is never an ASCII uppercase letter. -/
theorem toLower_not_upper (c : Char) :
    ¬(65 ≤ (Char.toLower c).toNat ∧ (Char.toLower c).toNat ≤ 90) := by
  unfold Char.toLower
  simp only []
  by_cases hc : c.toNat ≥ 65 ∧ c.toNat ≤ 90
  · rw [if_pos hc, charOfNat_toNat (c.toNat + 32) (by omega) (by omega)]
    omega
  · rw [if_neg hc]
    omega

/-- Helper: stripping whitespace only removes characters. -/
theorem mem_trimChars (x : Char) (l : List Char) (h : x ∈ trimChars l) :
    x ∈ l := by
  unfold trimChars at h
  rw [List.mem_reverse] at h
  have h1 := (List.dropWhile_sublist (l := (l.dropWhile Char.isWhitespace).reverse)
    (p := Char.isWhitespace)).subset h
  rw [List.mem_reverse] at h1
  exact (List.dropWhile_sublist (l := l) (p := Char.isWhitespace)).subset h1

/-- Helper: a cleaned tag contains no `'#'`. -/
theorem hash_not_mem_clean_tag (tag : List Char) : '#' ∉ clean_tag tag := by
  intro hmem
  have h1 := mem_trimChars _ _ hmem
  rw [List.mem_map] at h1
  obtain ⟨c, hc, hlow⟩ := h1
  have hch := toLower_eq_hash c hlow
  subst hch
  rw [List.mem_filter] at hc
  simp at hc

/-- Helper: a cleaned tag contains no ASCII uppercase letter. -/
theorem clean_tag_not_upper (tag : List Char) :
    ∀ ch ∈ clean_tag tag, ¬(65 ≤ ch.toNat ∧ ch.toNat ≤ 90) := by
  intro ch hch
  have h1 := mem_trimChars _ _ hch
  rw [List.mem_map] at h1
  obtain ⟨c, -, hlow⟩ := h1
  rw [← hlow]
  exact toLower_not_upper c

theorem popLE_trans (a b c : TikTokPost) :
    popLE a b = true → popLE b c = true → popLE a c = true := by
  simp only [popLE, decide_eq_true_eq]
  omega

theorem popLE_total (a b : TikTokPost) : (popLE a b || popLE b a) = true := by
  simp only [popLE, Bool.or_eq_true, decide_eq_true_eq]
  omega

/-- C8 counterexample: the GPT-response cleaning performs no deduplication —
two identical raw tags survive as two identical entries, so the output is not
pairwise distinct. -/
theorem clean_gpt_hashtags_not_distinct :
    clean_gpt_hashtags ["tag".toList, "tag".toList] =
        ["tag".toList, "tag".toList] ∧
      ¬ (clean_gpt_hashtags ["tag".toList, "tag".toList]).Nodup := by
  constructor
  · decide
  · decide

/-- C8 amended: the extractor picks the top posts by `views + likes*10`
(non-increasing popularity across the selection), and the cleaned hashtag
list has at most 5 entries, each non-empty, free of `'#'`, and free of ASCII
uppercase letters — but the entries need not be pairwise distinct. -/
theorem analyze_hashtags_contract (raw : List (List Char))
    (posts : List TikTokPost) :
    (clean_gpt_hashtags raw).length ≤ 5 ∧
      (∀ s ∈ clean_gpt_hashtags raw, s ≠ [] ∧ '#' ∉ s ∧
        ∀ ch ∈ s, ¬(65 ≤ ch.toNat ∧ ch.toNat ≤ 90)) ∧
      (top_posts posts).Pairwise
        (fun a b => popularityKey b ≤ popularityKey a) := by
  refine ⟨?_, ?_, ?_⟩
  · calc (clean_gpt_hashtags raw).length ≤ (raw.take 5).length :=
          List.length_filterMap_le _ _
      _ ≤ 5 := by simp
  · intro s hs
    rw [clean_gpt_hashtags, List.mem_filterMap] at hs
    obtain ⟨tag, -, htag⟩ := hs
    by_cases hnil : clean_tag tag = []
    · rw [if_pos hnil] at htag
      exact absurd htag (by simp)
    · rw [if_neg hnil] at htag
      obtain rfl : clean_tag tag = s := by injection htag
      exact ⟨hnil, hash_not_mem_clean_tag tag, clean_tag_not_upper tag⟩
  · have hs := List.sorted_mergeSort popLE_trans popLE_total posts
    have hp : (posts.mergeSort popLE).Pairwise
        (fun a b => popularityKey b ≤ popularityKey a) := by
      refine hs.imp ?_
      intro a b h
      simpa [popLE] using h
    exact hp.sublist (List.take_sublist _ _)

/-- C9: no AI-collaborator failure hard-fails the pipeline. On classifier
failure the hashtag extractor returns the frequency-derived fallback with a
summary flagging it (given a non-empty post list); the niche enrichment
assigns the fixed fallback niche fields; and the relevance scorer falls back
to the text-only heuristic. -/
theorem classifier_failures_fall_back (posts : List TikTokPost)
    (hp : posts ≠ []) (profile : TikTokProfile) :
    analyze_posts_for_hashtags posts (.error ()) =
        .ok ⟨generate_fallback_hashtags posts, fallback_analysis_summary⟩ ∧
      ((enhance_profile_with_niche profile (.error ())).niche_category =
          "General Content Creator" ∧
        (enhance_profile_with_niche profile (.error ())).niche_description =
          "Content creator with diverse topics and engaging content" ∧
        (enhance_profile_with_niche profile (.error ())).key_topics =
          ["entertainment", "lifestyle", "social media"]) ∧
      ∀ (t : TrendVideo) (nw tp : List (List Char)) (now : Int),
        relevance_stage_score VisionOutcome.visionUnavailable t nw tp now =
          analyze_text_relevance t nw tp now := by
  refine ⟨?_, ⟨rfl, rfl, rfl⟩, fun _ _ _ _ => rfl⟩
  rw [analyze_posts_for_hashtags, if_neg (by simpa using hp)]

/-- Witness for C9 at a concrete input. -/
theorem classifier_failures_fall_back_witness :
    analyze_posts_for_hashtags [⟨"p", [], 1, 0, 0, 0, .iso 0, []⟩] (.error ()) =
      .ok ⟨generate_fallback_hashtags [⟨"p", [], 1, 0, 0, 0, .iso 0, []⟩],
        fallback_analysis_summary⟩ :=
  (classifier_failures_fall_back [⟨"p", [], 1, 0, 0, 0, .iso 0, []⟩]
    (by simp) ⟨"u", "b", 0, 0, "", "", [], "", ""⟩).1

end TrendAnalysis
